import Mathlib

/-
Verification of the multiplayer network transport layer of jazz2-native:
a shallow embedding of `Sources/Jazz2/Multiplayer/NetworkManager.h` and of
the manager behaviour it declares.  The header (enumerations, capacity
constant, member fields and the public method signatures) is embedded
directly; the method bodies live in `NetworkManager.cpp`, which is not
among the provided sources, so the operational behaviour is modelled from
the specification (sections 4.1 to 4.4, 5 and 7) and each such definition
is marked `Modelled from the spec:` in its doc comment.
-/

/-- Logical delivery streams multiplexed over one session, from
`NetworkManager.h` lines 23 to 28: `Main` (reliable, ordered control
channel), `UnreliableUpdates` (unreliable high-frequency updates) and the
`Count` sentinel. -/
inductive NetworkChannel where
  | Main
  | UnreliableUpdates
  | Count
deriving DecidableEq

/-- Session lifecycle states, from `NetworkManager.h` lines 30 to 36. -/
inductive NetworkState where
  | None
  | Listening
  | Connecting
  | Connected
deriving DecidableEq

/-- Maximum simultaneous peer count, `NetworkManager.h` line 58:
`static constexpr std::size_t MaxPeerCount = 64;`. -/
def MaxPeerCount : Nat := 64

/-- Service-loop period in milliseconds, `NetworkManager.h` line 59. -/
def ProcessingIntervalMs : Nat := 4

/-- Remote address (`StringView` in the header). -/
abbrev Address := String

/-- Port argument (`std::uint16_t` in the header). -/
abbrev Port := Fin 65536

/-- Opaque application client data (`std::uint32_t` in the header). -/
abbrev ClientData := Fin 4294967296

/-- Opaque native peer handle (`_ENetPeer*` in the header); modelled as an
abstract identifier. -/
abbrev PeerHandle := Nat

/-- Opaque reference to the consumer's `INetworkHandler` implementation. -/
abbrev INetworkHandler := Nat

/-- Application-defined kick reason code (`Reason` in the header; the
defining `Reason.h` is not among the provided sources, so the code is kept
abstract). -/
abbrev Reason := Nat

/-- The mutable state of one `NetworkManager` instance, from the private
fields of `NetworkManager.h` lines 61 to 67: the session state `_state`,
whether the transport host `_host` is live, whether the background
I/O thread `_thread` is running, the peer collection `_peers`, and the
stored `_handler`.  The mutex `_lock` serialises the two threads in the
original; the embedding is the sequential interleaving it enforces. -/
structure Manager where
  state : NetworkState
  host : Bool
  thread : Bool
  peers : List PeerHandle
  handler : Option INetworkHandler
deriving DecidableEq

/-- A freshly constructed manager: no session, no host, no thread, no
peers. -/
def Manager.init : Manager :=
  { state := NetworkState.None, host := false, thread := false,
    peers := [], handler := none }

/-- One message handed to the transport for delivery to one peer on one
channel. -/
structure Delivery where
  peer : PeerHandle
  channel : NetworkChannel
  payload : List Nat
deriving DecidableEq

/-- Modelled from the spec: `CreateClient` (section 4.1; the body in
`NetworkManager.cpp` is not among the provided sources).  Preconditions:
no session active (state `None`) and transport host construction succeeds
(`hostOk` stands for the environment-dependent outcome of constructing the
ENet host).  On violation or construction failure it returns `false` with
no side effects; otherwise it returns `true`, transitions `None` to
`Connecting`, records the handler and spawns the background thread. -/
def createClient (m : Manager) (hostOk : Bool) (handler : INetworkHandler)
    (address : Address) (port : Port) (clientData : ClientData) :
    Bool × Manager :=
  if m.state = NetworkState.None ∧ hostOk = true then
    (true, { state := NetworkState.Connecting, host := true, thread := true,
             peers := m.peers, handler := some handler })
  else
    (false, m)

/-- Modelled from the spec: `CreateServer` (section 4.1; the body in
`NetworkManager.cpp` is not among the provided sources).  Same contract as
`createClient` with connecting replaced by binding and listening:
transitions `None` to `Listening`. -/
def createServer (m : Manager) (hostOk : Bool) (handler : INetworkHandler)
    (port : Port) : Bool × Manager :=
  if m.state = NetworkState.None ∧ hostOk = true then
    (true, { state := NetworkState.Listening, host := true, thread := true,
             peers := m.peers, handler := some handler })
  else
    (false, m)

/-- Modelled from the spec: `Dispose` (section 4.1; the body in
`NetworkManager.cpp` is not among the provided sources).  Signals the
background thread to stop, joins it, releases the transport host and
clears the peer collection, returning the session to `None`.  It is total
(never fails) and safe to call at any time. -/
def dispose (m : Manager) : Manager :=
  { state := NetworkState.None, host := false, thread := false,
    peers := [], handler := m.handler }

/-- Modelled from the spec: `GetState` (section 4.1) returns the current
session state under the shared mutex. -/
def getState (m : Manager) : NetworkState :=
  m.state

/-- Modelled from the spec: `SendToPeer` (sections 4.1 and 7; the body in
`NetworkManager.cpp` is not among the provided sources).  Enqueues the
payload for delivery to `peer` on `channel`; if `peer` is no longer in the
peer collection (it has disconnected) the call is a no-op that delivers
nothing.  The function is total: the embedding of never crashes, never
throws. -/
def sendToPeer (m : Manager) (peer : PeerHandle) (channel : NetworkChannel)
    (data : List Nat) : Manager × List Delivery :=
  if peer ∈ m.peers then
    (m, [{ peer := peer, channel := channel, payload := data }])
  else
    (m, [])

/-- Modelled from the spec: `SendToAll` (section 4.1; the body in
`NetworkManager.cpp` is not among the provided sources).  Fans the payload
out to every currently connected peer under one lock acquisition, so the
recipient set is the single snapshot `m.peers`. -/
def sendToAll (m : Manager) (channel : NetworkChannel) (data : List Nat) :
    Manager × List Delivery :=
  (m, m.peers.map (fun p => { peer := p, channel := channel, payload := data }))

/-- Modelled from the spec: `KickClient` (section 4.1) requests an
asynchronous disconnection; the manager state is untouched until the
transport confirms it with a disconnect event. -/
def kickClient (m : Manager) (peer : PeerHandle) (reason : Reason) :
    Manager :=
  m

/-- Transport events drained by the background I/O thread (section 4.3):
the client's connection attempt succeeding or failing, a server-side
connection accepted by the host, a disconnection or timeout, and a fatal
transport error. -/
inductive TransportEvent where
  | connectSucceeded
  | connectFailed
  | peerConnected (p : PeerHandle)
  | peerDisconnected (p : PeerHandle)
  | fatalError
deriving DecidableEq

/-- Modelled from the spec: the event-processing step of the background
I/O thread (sections 4.2 and 4.3; `OnClientThread` and `OnServerThread`
bodies in `NetworkManager.cpp` are not among the provided sources).
A successful client attempt moves `Connecting` to `Connected`; a failed or
timed-out attempt, and a fatal transport error, tear the session down to
`None` (no host, no thread, section 4.2).  A connection accepted by the
listening host appends a peer, with capacity `MaxPeerCount` enforced at
the transport-host-construction boundary, so an over-capacity attempt is
rejected and nothing changes; a disconnection removes the peer. -/
def handleEvent (m : Manager) : TransportEvent → Manager
  | TransportEvent.connectSucceeded =>
      if m.state = NetworkState.Connecting then
        { m with state := NetworkState.Connected }
      else m
  | TransportEvent.connectFailed =>
      if m.state = NetworkState.Connecting then
        { m with state := NetworkState.None, host := false, thread := false,
                 peers := [] }
      else m
  | TransportEvent.peerConnected p =>
      if m.state = NetworkState.Listening ∧ m.peers.length < MaxPeerCount then
        { m with peers := m.peers ++ [p] }
      else m
  | TransportEvent.peerDisconnected p =>
      { m with peers := m.peers.filter (fun q => q ≠ p) }
  | TransportEvent.fatalError =>
      if m.state = NetworkState.None then m
      else
        { m with state := NetworkState.None, host := false, thread := false,
                 peers := [] }

/-- One step of the whole system: either a public call on the application
thread or a transport event processed on the I/O thread.  The mutex of the
original serialises these, so a run is a sequence of such actions. -/
inductive NetAction where
  | createClient (hostOk : Bool) (handler : INetworkHandler)
      (address : Address) (port : Port) (clientData : ClientData)
  | createServer (hostOk : Bool) (handler : INetworkHandler) (port : Port)
  | dispose
  | getState
  | sendToPeer (peer : PeerHandle) (channel : NetworkChannel) (data : List Nat)
  | sendToAll (channel : NetworkChannel) (data : List Nat)
  | kickClient (peer : PeerHandle) (reason : Reason)
  | transport (e : TransportEvent)

/-- Apply one action to the manager state. -/
def applyAction (m : Manager) : NetAction → Manager
  | NetAction.createClient ok h a p c => (createClient m ok h a p c).2
  | NetAction.createServer ok h p => (createServer m ok h p).2
  | NetAction.dispose => dispose m
  | NetAction.getState => m
  | NetAction.sendToPeer p ch d => (sendToPeer m p ch d).1
  | NetAction.sendToAll ch d => (sendToAll m ch d).1
  | NetAction.kickClient p r => kickClient m p r
  | NetAction.transport e => handleEvent m e

/-- Run a sequence of actions from a manager state. -/
def run (m : Manager) (as : List NetAction) : Manager :=
  as.foldl applyAction m

/-- A manager state is reachable when some action sequence produces it
from a freshly constructed manager. -/
def Reachable (m : Manager) : Prop :=
  ∃ as : List NetAction, run Manager.init as = m

/-- Fundamental manager invariant (spec sections 3 and 4.2): the peer
collection never exceeds `MaxPeerCount`; the background thread and the
host handle are simultaneously present or simultaneously absent; and in
state `None` there is no host, no thread and no peer. -/
def ManagerInv (m : Manager) : Prop :=
  m.peers.length ≤ MaxPeerCount ∧ m.thread = m.host ∧
    (m.state = NetworkState.None →
      m.host = false ∧ m.thread = false ∧ m.peers = [])

theorem sendToPeer_fst (m : Manager) (p : PeerHandle) (ch : NetworkChannel)
    (d : List Nat) : (sendToPeer m p ch d).1 = m := by
  unfold sendToPeer
  split <;> rfl

theorem managerInv_init : ManagerInv Manager.init := by
  refine ⟨?_, rfl, fun _ => ⟨rfl, rfl, rfl⟩⟩
  simp [Manager.init, MaxPeerCount]

theorem managerInv_applyAction {m : Manager} (hm : ManagerInv m) (a : NetAction) :
    ManagerInv (applyAction m a) := by
  obtain ⟨hlen, hth, hnone⟩ := hm
  cases a with
  | createClient ok h addr p c =>
      simp only [applyAction, createClient]
      split
      · exact ⟨hlen, rfl, by simp⟩
      · exact ⟨hlen, hth, hnone⟩
  | createServer ok h p =>
      simp only [applyAction, createServer]
      split
      · exact ⟨hlen, rfl, by simp⟩
      · exact ⟨hlen, hth, hnone⟩
  | dispose =>
      exact ⟨by simp [applyAction, dispose, MaxPeerCount], rfl,
        fun _ => ⟨rfl, rfl, rfl⟩⟩
  | getState =>
      exact ⟨hlen, hth, hnone⟩
  | sendToPeer p ch d =>
      simpa only [applyAction, sendToPeer_fst] using ⟨hlen, hth, hnone⟩
  | sendToAll ch d =>
      exact ⟨hlen, hth, hnone⟩
  | kickClient p r =>
      exact ⟨hlen, hth, hnone⟩
  | transport e =>
      cases e with
      | connectSucceeded =>
          simp only [applyAction, handleEvent]
          split
          · next hs => exact ⟨hlen, hth, by simp⟩
          · exact ⟨hlen, hth, hnone⟩
      | connectFailed =>
          simp only [applyAction, handleEvent]
          split
          · exact ⟨by simp [MaxPeerCount], rfl, fun _ => ⟨rfl, rfl, rfl⟩⟩
          · exact ⟨hlen, hth, hnone⟩
      | peerConnected p =>
          simp only [applyAction, handleEvent]
          split
          · next hc =>
              refine ⟨?_, hth, ?_⟩
              · simpa using hc.2
              · intro hs
                rw [hc.1] at hs
                exact absurd hs (by simp)
          · exact ⟨hlen, hth, hnone⟩
      | peerDisconnected p =>
          simp only [applyAction, handleEvent]
          refine ⟨le_trans (List.length_filter_le _ _) hlen, hth, ?_⟩
          intro hs
          obtain ⟨h1, h2, h3⟩ := hnone hs
          exact ⟨h1, h2, by rw [h3]; rfl⟩
      | fatalError =>
          simp only [applyAction, handleEvent]
          split
          · exact ⟨hlen, hth, hnone⟩
          · exact ⟨by simp [MaxPeerCount], rfl, fun _ => ⟨rfl, rfl, rfl⟩⟩

theorem managerInv_run {m : Manager} (hm : ManagerInv m) (as : List NetAction) :
    ManagerInv (run m as) := by
  induction as generalizing m with
  | nil => exact hm
  | cons a as ih => exact ih (managerInv_applyAction hm a)

theorem reachable_managerInv {m : Manager} (h : Reachable m) : ManagerInv m := by
  obtain ⟨as, hrun⟩ := h
  exact hrun ▸ managerInv_run managerInv_init as

/-- The session-state transition table of spec section 4.2: a step keeps
the state unchanged or moves along one of the listed edges. -/
def stateTransitionAllowed (s t : NetworkState) : Bool :=
  decide (s = t) ||
    (match s, t with
     | NetworkState.None, NetworkState.Listening => true
     | NetworkState.None, NetworkState.Connecting => true
     | NetworkState.Connecting, NetworkState.Connected => true
     | NetworkState.Connecting, NetworkState.None => true
     | NetworkState.Listening, NetworkState.None => true
     | NetworkState.Connected, NetworkState.None => true
     | _, _ => false)

theorem stateTransitionAllowed_refl (s : NetworkState) :
    stateTransitionAllowed s s = true := by
  cases s <;> rfl

/-- C1: every step of the system (any public call or transport event)
changes the session state only along the transitions of spec section 4.2:
`None` to `Listening` (successful `CreateServer`), `None` to `Connecting`
(successful `CreateClient`), `Connecting` to `Connected` (client connect
success), `Connecting` to `None` (attempt failed or timed out) and
`Listening` or `Connected` to `None` (`Dispose` or fatal error), or keeps
the state unchanged.  Since `stateTransitionAllowed` has `Connecting` to
`Connected` as its only edge into `Connected` and no `Listening` to
`Connected` edge, `Connected` is never reached except from `Connecting`
and there is no direct `Listening` to `Connected` transition. -/
theorem spec_C1_state_transitions (m : Manager) (a : NetAction) :
    stateTransitionAllowed m.state (applyAction m a).state = true := by
  cases a with
  | createClient ok h addr p c =>
      simp only [applyAction, createClient]
      split
      · next hc => rw [hc.1]; rfl
      · exact stateTransitionAllowed_refl _
  | createServer ok h p =>
      simp only [applyAction, createServer]
      split
      · next hc => rw [hc.1]; rfl
      · exact stateTransitionAllowed_refl _
  | dispose =>
      cases m.state <;> rfl
  | getState =>
      exact stateTransitionAllowed_refl _
  | sendToPeer p ch d =>
      simp only [applyAction, sendToPeer_fst]
      exact stateTransitionAllowed_refl _
  | sendToAll ch d =>
      exact stateTransitionAllowed_refl _
  | kickClient p r =>
      exact stateTransitionAllowed_refl _
  | transport e =>
      cases e with
      | connectSucceeded =>
          simp only [applyAction, handleEvent]
          split
          · next hc => rw [hc]; rfl
          · exact stateTransitionAllowed_refl _
      | connectFailed =>
          simp only [applyAction, handleEvent]
          split
          · next hc => rw [hc]; rfl
          · exact stateTransitionAllowed_refl _
      | peerConnected p =>
          simp only [applyAction, handleEvent]
          split
          · exact stateTransitionAllowed_refl _
          · exact stateTransitionAllowed_refl _
      | peerDisconnected p =>
          exact stateTransitionAllowed_refl _
      | fatalError =>
          simp only [applyAction, handleEvent]
          split
          · exact stateTransitionAllowed_refl _
          · cases m.state <;> rfl

/-- C2: in every reachable manager state the peer collection holds at
most `MaxPeerCount` (64) peers — its length, a `Nat`, cannot be negative —
and when the collection is full a further connection attempt is rejected
at the transport-host boundary: the `peerConnected` event leaves the
manager completely unchanged instead of overflowing the collection. -/
theorem spec_C2_peer_capacity (m : Manager) (p : PeerHandle) :
    (Reachable m → m.peers.length ≤ MaxPeerCount) ∧
      (¬ m.peers.length < MaxPeerCount →
        handleEvent m (TransportEvent.peerConnected p) = m) := by
  constructor
  · intro h
    exact (reachable_managerInv h).1
  · intro h
    simp only [handleEvent]
    exact if_neg (fun hc => h hc.2)

theorem spec_C2_peer_capacity_witness :
    Manager.init.peers.length ≤ MaxPeerCount ∧
      handleEvent
          { state := NetworkState.Listening, host := true, thread := true,
            peers := List.range 64, handler := none }
          (TransportEvent.peerConnected 99) =
        { state := NetworkState.Listening, host := true, thread := true,
          peers := List.range 64, handler := none } :=
  ⟨(spec_C2_peer_capacity Manager.init 0).1 ⟨[], rfl⟩,
   (spec_C2_peer_capacity _ 99).2 (by simp [MaxPeerCount])⟩

/-- C3: `Dispose` is idempotent and infallible: it is a total function
(it cannot fail, even on a partially torn-down state), disposing twice
equals disposing once, and on a reachable manager with no active session
(state `None`) it is a no-op. -/
theorem spec_C3_dispose_idempotent (m : Manager) :
    dispose (dispose m) = dispose m ∧
      (Reachable m → m.state = NetworkState.None → dispose m = m) := by
  constructor
  · rfl
  · intro hr hs
    obtain ⟨hlen, hth, hnone⟩ := reachable_managerInv hr
    obtain ⟨h1, h2, h3⟩ := hnone hs
    cases m with
    | mk st ho th pe ha =>
        simp only [dispose]
        simp only at hs h1 h2 h3
        subst hs h1 h2 h3
        rfl

theorem spec_C3_dispose_idempotent_witness :
    dispose (dispose Manager.init) = dispose Manager.init ∧
      dispose Manager.init = Manager.init :=
  ⟨(spec_C3_dispose_idempotent Manager.init).1,
   (spec_C3_dispose_idempotent Manager.init).2 ⟨[], rfl⟩ rfl⟩

/-- C4: `CreateClient` and `CreateServer` return `false` with no side
effects whatsoever (the manager is unchanged: no state change, no thread
spawned) whenever a session is already active (state not `None`) or
transport-host construction fails; otherwise they return `true`, move the
state from `None` to `Connecting` (client) or `Listening` (server), and
spawn the single background thread (`thread` becomes `true`). -/
theorem spec_C4_create_contract (m : Manager) (ok : Bool)
    (h : INetworkHandler) (addr : Address) (p : Port) (c : ClientData) :
    (¬ (m.state = NetworkState.None ∧ ok = true) →
        createClient m ok h addr p c = (false, m) ∧
          createServer m ok h p = (false, m)) ∧
      (m.state = NetworkState.None → ok = true →
        createClient m ok h addr p c =
            (true, { state := NetworkState.Connecting, host := true,
                     thread := true, peers := m.peers,
                     handler := some h }) ∧
          createServer m ok h p =
            (true, { state := NetworkState.Listening, host := true,
                     thread := true, peers := m.peers,
                     handler := some h })) := by
  constructor
  · intro hno
    refine ⟨?_, ?_⟩ <;> · simp only [createClient, createServer]
                          rw [if_neg hno]
  · intro h1 h2
    refine ⟨?_, ?_⟩ <;> · simp only [createClient, createServer]
                          rw [if_pos ⟨h1, h2⟩]

theorem spec_C4_create_contract_witness :
    (createClient
        { state := NetworkState.Connecting, host := true, thread := true,
          peers := [], handler := none } true 7 "addr" 0 0 =
      (false,
        { state := NetworkState.Connecting, host := true, thread := true,
          peers := [], handler := none })) ∧
      (createServer Manager.init true 7 0 =
        (true, { state := NetworkState.Listening, host := true,
                 thread := true, peers := [], handler := some 7 })) :=
  ⟨((spec_C4_create_contract _ true 7 "addr" 0 0).1 (by decide)).1,
   ((spec_C4_create_contract Manager.init true 7 "addr" 0 0).2 rfl rfl).2⟩

/-- C5: sending to a peer that has already disconnected (is not in the
peer collection) neither crashes nor throws — `sendToPeer` is a total
function — and delivers nothing: the call is a no-op that leaves the
manager unchanged and hands no message to the transport. -/
theorem spec_C5_send_disconnected (m : Manager) (p : PeerHandle)
    (ch : NetworkChannel) (d : List Nat) (hp : p ∉ m.peers) :
    sendToPeer m p ch d = (m, []) := by
  simp only [sendToPeer]
  rw [if_neg hp]

theorem spec_C5_send_disconnected_witness :
    sendToPeer Manager.init 5 NetworkChannel.Main [1, 2] =
      (Manager.init, []) :=
  spec_C5_send_disconnected Manager.init 5 NetworkChannel.Main [1, 2]
    (by decide)

/-- Modelled from the spec: the per-channel reliability policy (sections
3 and 4.4; the packet-flag choice lives in `NetworkManager.cpp`, which is
not among the provided sources).  `Main` is the reliable, ordered control
channel; `UnreliableUpdates` is unreliable; the `Count` sentinel is not a
real channel. -/
def channelReliable : NetworkChannel → Bool
  | NetworkChannel.Main => true
  | NetworkChannel.UnreliableUpdates => false
  | NetworkChannel.Count => false

/-- Modelled from the spec: what the transport delivers to one peer that
remains connected, per channel policy (section 4.4).  `sent` is the
sequence of payloads sent to that peer on the channel; `kept` is the
environment's choice of which sends survive (and in which order they
land) on an unreliable channel.  A reliable channel delivers every send,
exactly once, in order; an unreliable channel delivers a duplicate-free
selection of the sends in an arbitrary order. -/
def transportDeliver (ch : NetworkChannel) (sent : List (List Nat))
    (kept : List Nat) : List (List Nat) :=
  if channelReliable ch then sent
  else kept.dedup.filterMap (fun i => sent[i]?)

/-- C6: for a peer that remains connected, every control-channel
(`Main`) send arrives exactly once and in send order — the delivered
sequence is exactly the sent sequence — while an
`UnreliableUpdates`-channel send arrives at most once: the delivered
sequence is indexed by a duplicate-free list of send indices (some sends
may be missing and order is not guaranteed, but no send is ever delivered
twice). -/
theorem spec_C6_channel_policy (sent : List (List Nat)) (kept : List Nat) :
    transportDeliver NetworkChannel.Main sent kept = sent ∧
      ∃ idx : List Nat, idx.Nodup ∧
        transportDeliver NetworkChannel.UnreliableUpdates sent kept =
          idx.filterMap (fun i => sent[i]?) :=
  ⟨rfl, kept.dedup, kept.nodup_dedup, rfl⟩

/-- Following the claim's words for C7: `SendToAll` as repeated
single-peer `sendToPeer` calls carried out over the one peer snapshot
`m.peers` taken under the single lock acquisition. -/
def sendToAllSpec (m : Manager) (channel : NetworkChannel)
    (data : List Nat) : Manager × List Delivery :=
  m.peers.foldl
    (fun acc p =>
      ((sendToPeer acc.1 p channel data).1,
        acc.2 ++ (sendToPeer acc.1 p channel data).2))
    (m, [])

theorem sendToAllSpec_aux (m : Manager) (ch : NetworkChannel)
    (d : List Nat) (l : List PeerHandle) (acc : List Delivery)
    (hl : ∀ p ∈ l, p ∈ m.peers) :
    l.foldl
        (fun acc p =>
          ((sendToPeer acc.1 p ch d).1,
            acc.2 ++ (sendToPeer acc.1 p ch d).2))
        (m, acc) =
      (m, acc ++ l.map (fun p => { peer := p, channel := ch,
                                   payload := d })) := by
  induction l generalizing acc with
  | nil => simp
  | cons q l ih =>
      have hq : q ∈ m.peers := hl q (List.mem_cons_self q l)
      have hstep : sendToPeer m q ch d =
          (m, [{ peer := q, channel := ch, payload := d }]) := by
        simp only [sendToPeer]
        rw [if_pos hq]
      simp only [List.foldl_cons, List.map_cons, hstep]
      rw [ih _ (fun p hp => hl p (List.mem_cons_of_mem q hp))]
      simp

/-- C7: `SendToAll` on a channel is equivalent to performing `SendToPeer`
for every currently connected peer, all under the one lock acquisition:
both produce the unchanged manager and one delivery per peer of the
single snapshot `m.peers`. -/
theorem spec_C7_sendToAll_refines (m : Manager) (ch : NetworkChannel)
    (d : List Nat) : sendToAll m ch d = sendToAllSpec m ch d := by
  unfold sendToAll sendToAllSpec
  rw [sendToAllSpec_aux m ch d m.peers [] (fun p hp => hp)]
  simp

/-- C8: in every reachable manager state the background I/O thread and
the transport host are both present or both absent: the thread runs
exactly when a live host exists. -/
theorem spec_C8_thread_host_coupled (m : Manager) (hr : Reachable m) :
    m.thread = true ↔ m.host = true := by
  rw [(reachable_managerInv hr).2.1]

theorem spec_C8_thread_host_coupled_witness :
    Manager.init.thread = true ↔ Manager.init.host = true :=
  spec_C8_thread_host_coupled Manager.init ⟨[], rfl⟩

/-- C9: the construction interface has exactly the shape declared in
`NetworkManager.h` lines 44 to 45: `createClient` takes (besides the
handler and the environment's host-construction outcome) a remote
address, a 16-bit port and an opaque 32-bit client-data value, while
`createServer` takes only the listen port; the client-data type has
exactly two to the thirty-second values and the port type two to the
sixteenth. -/
theorem spec_C9_interface_shape :
    (∃ f : Manager → Bool → INetworkHandler → Address → Port →
        ClientData → Bool × Manager, f = createClient) ∧
      (∃ g : Manager → Bool → INetworkHandler → Port → Bool × Manager,
        g = createServer) ∧
      Fintype.card ClientData = 2 ^ 32 ∧ Fintype.card Port = 2 ^ 16 := by
  refine ⟨⟨createClient, rfl⟩, ⟨createServer, rfl⟩, ?_, ?_⟩ <;>
    · rw [Fintype.card_fin]
      norm_num

/-- A world of independently owned manager instances, each evolving only
through the public operations of `NetworkManager.h` applied to it.  The
copy constructor and copy assignment are deleted in the header (lines 55
to 56), so no operation takes one manager to produce another: a step
updates exactly the addressed manager in place. -/
def worldStep (w : List Manager) (i : Nat) (a : NetAction) :
    List Manager :=
  match w[i]? with
  | some m => w.set i (applyAction m a)
  | none => w

/-- Run a script of indexed public operations over a world of managers. -/
def runWorld (w : List Manager) (s : List (Nat × NetAction)) :
    List Manager :=
  s.foldl (fun w step => worldStep w step.1 step.2) w

/-- C10: a manager instance can never be duplicated: under any script of
public operations the number of manager instances in the world is
invariant — no operation of the interface (whose copy operations the
header deletes) produces a second manager sharing the session of an
existing one. -/
theorem spec_C10_no_copy (w : List Manager) (s : List (Nat × NetAction)) :
    (runWorld w s).length = w.length := by
  induction s generalizing w with
  | nil => rfl
  | cons st s ih =>
      have h1 : (worldStep w st.1 st.2).length = w.length := by
        rcases hw : w[st.1]? with _ | m <;>
          simp [worldStep, hw, List.length_set]
      exact (ih (worldStep w st.1 st.2)).trans h1
